import Mathlib

/-!
Shallow embedding of the `pluginlib` library (Rockhopper-Technologies/pluginlib)
for verifying its natural-language specification.

Source files embedded:
  * `pluginlib/_objects.py`  — `BlacklistEntry`, `GroupDict`, `TypeDict`, `PluginDict`
  * `pluginlib/_parent.py`   — `ClassInspector`, `PluginType.__new__`, `Plugin.version`
  * `pluginlib/_loader.py`   — `format_exception`, `_raise_friendly_exception`
  * `pluginlib/_util.py`     — `CachingDict`

Python values that can be `None`, a string, or a number are modelled with the
`PyVal` inductive; Python truthiness (`None`, `''`, `[]`, `{}` falsy) is made
explicit at each use site.
-/

namespace Pluginlib

/-- A Python argument value as passed to `BlacklistEntry.__init__`:
`None`, a text string, or a numeric value. -/
inductive PyVal where
  | pynone
  | str (s : String)
  | int (n : Int)
  deriving DecidableEq, Repr

/-- `entry is None` for a `PyVal`. -/
def PyVal.isNone : PyVal → Bool
  | .pynone => true
  | _ => false

/-- `isinstance(value, BASESTRING)` for a `PyVal`. -/
def PyVal.isStr : PyVal → Bool
  | .str _ => true
  | _ => false

/-- Python truthiness of an optional string (`None` and `''` are falsy). -/
def pyTruthy : Option String → Bool
  | none => false
  | some s => !(s == "")

/-- The keys of the `OPERATORS` dictionary from `pluginlib/_util.py`:
`{'=', '==', '!=', '<', '<=', '>', '>='}`. -/
def OPERATORS : List String := ["=", "==", "!=", "<", "<=", ">", ">="]

/-- `value in OPERATORS` (dictionary-key membership) for a `PyVal`. -/
def PyVal.isOperator : PyVal → Bool
  | .str s => OPERATORS.contains s
  | _ => false

/-- Error kinds raised by `BlacklistEntry.__init__`. -/
inductive InitError where
  | attrError (msg : String)
  | typeError (msg : String)
  deriving DecidableEq, Repr

/-- `BlacklistEntry` from `pluginlib/_objects.py`: slots
`('type', 'name', 'version', 'operator')`. -/
structure BlacklistEntry where
  type : PyVal
  name : PyVal
  version : PyVal
  operator : PyVal
  deriving DecidableEq, Repr

/-- The version value `BlacklistEntry.__init__` normalizes to: `self.version`
after the `if version in OPERATORS` swap block (the third positional argument,
unless it is an operator token, in which case the fourth). -/
def normalizedVersion (version operator : PyVal) : PyVal :=
  if version.isOperator then operator else version

/-- The operator value `BlacklistEntry.__init__` normalizes to: `self.operator`
after the swap block, before the `'=='` default is applied. -/
def normalizedOperator (version operator : PyVal) : PyVal :=
  if version.isOperator then version else operator

/-- `BlacklistEntry.__init__(plugin_type=None, name=None, version=None, operator=None)`
from `pluginlib/_objects.py` lines 58–83, returning the constructed entry or the
raised error.  The source stores `self.version`/`self.operator` via the swap
block; `normalizedVersion`/`normalizedOperator` name those post-swap values. -/
def BlacklistEntry.init (plugin_type name version operator : PyVal) :
    Except InitError BlacklistEntry :=
  if plugin_type = .pynone ∧ name = .pynone ∧ version = .pynone then
    .error (.attrError "plugin_type, name, or version must be specified")
  else if version.isOperator ∧ normalizedVersion version operator = .pynone then
    .error (.attrError "version must be specifed when operator is specified")
  else if normalizedVersion version operator ≠ .pynone ∧
      ¬ (normalizedVersion version operator).isStr then
    .error (.typeError "version must be a string")
  else if normalizedOperator version operator ≠ .pynone ∧
      ¬ (normalizedOperator version operator).isOperator then
    .error (.attrError "Unsupported operator")
  else
    .ok ⟨plugin_type, name, normalizedVersion version operator,
         if normalizedOperator version operator = .pynone then PyVal.str "=="
         else normalizedOperator version operator⟩

/-! ### `CachingDict` from `pluginlib/_util.py` -/

/-- `CachingDict` from `pluginlib/_util.py`: a `dict` subclass with a private
`_cache` dictionary.  `data` holds the dictionary's own items, `cache` the
private `_cache` items. -/
structure CachingDict where
  data : List (String × String)
  cache : List (String × String)
  deriving DecidableEq, Repr

/-- `key in dict` for the underlying dictionary. -/
def CachingDict.hasKey (d : CachingDict) (k : String) : Bool :=
  (d.data.lookup k).isSome

/-- Deletion of one key's binding from the underlying dictionary. -/
def removeKey (l : List (String × String)) (k : String) : List (String × String) :=
  l.filter (fun p => p.1 ≠ k)

/-- Outcome of `CachingDict.__delitem__`: either the key was missing (a
`KeyError` propagates) or the deletion succeeded; both carry the state the
object is left in. -/
inductive DelResult where
  | keyError (key : String) (state : CachingDict)
  | ok (state : CachingDict)
  deriving DecidableEq, Repr

/-- `CachingDict.__delitem__` from `pluginlib/_util.py` lines 211–215:
`try: super().__delitem__(key)` with `finally: self._cache.clear()`, so the
private cache is cleared even when the deletion raises `KeyError`. -/
def CachingDict.delitem (d : CachingDict) (k : String) : DelResult :=
  if d.hasKey k then .ok ⟨removeKey d.data k, []⟩
  else .keyError k ⟨d.data, []⟩

/-- Outcome of `CachingDict.pop` (single-argument form): either the key was
missing (the caught `KeyError` is re-raised) or the value is returned; both
carry the state the object is left in. -/
inductive PopResult where
  | keyError (key : String) (state : CachingDict)
  | ok (value : String) (state : CachingDict)
  deriving DecidableEq, Repr

/-- `CachingDict.pop` from `pluginlib/_util.py` lines 231–238 (single-argument
form): `super().pop(key)` inside `try`; on `KeyError` the error is re-raised
without touching `_cache`; otherwise `_cache.clear()` runs and the value is
returned. -/
def CachingDict.pop (d : CachingDict) (k : String) : PopResult :=
  match d.data.lookup k with
  | some v => .ok v ⟨removeKey d.data k, []⟩
  | none => .keyError k d

/-! ### Version ordering: model of `pkg_resources.parse_version`

`parse_version` comes from the third-party `pkg_resources` package, not from
this repository.  Spec §4.2 describes the required ordering: numeric release
segments compare numerically component-by-component, and two versions that
normalize identically are equal regardless of surface spelling (`1.0` equals
`1.0.0`).  The model below covers plain dotted numeric release versions (the
only shape the repository's own data uses); a non-numeric segment parses as
`0`. -/

/-- Split a character list on `'.'`. -/
def splitDots : List Char → List (List Char)
  | [] => [[]]
  | c :: rest =>
    let r := splitDots rest
    if c = '.' then [] :: r
    else
      match r with
      | h :: t => (c :: h) :: t
      | [] => [[c]]

/-- Numeric value of one version segment (`0` for an empty or non-numeric
segment). -/
def segToNat (l : List Char) : Nat :=
  if ¬ l.isEmpty ∧ l.all Char.isDigit then
    l.foldl (fun acc c => acc * 10 + (c.toNat - 48)) 0
  else 0

/-- Parse of a version string: its list of numeric segments. -/
def parse_version (s : String) : List Nat :=
  (splitDots s.toList).map segToNat

/-- All segments zero (a zero-padded tail). -/
def allZero : List Nat → Bool
  | [] => true
  | a :: as => a == 0 && allZero as

/-- Strict `<` on parsed versions: lexicographic with implicit zero padding,
so `[1] < [1, 0, 1]` and `[1, 0]` is not below `[1]`. -/
def segLt : List Nat → List Nat → Bool
  | [], bs => !allZero bs
  | _ :: _, [] => false
  | a :: as, b :: bs => if a < b then true else if b < a then false else segLt as bs

/-- Equality on parsed versions: componentwise with implicit zero padding. -/
def segEq : List Nat → List Nat → Bool
  | [], bs => allZero bs
  | a :: as, [] => allZero (a :: as)
  | a :: as, b :: bs => a == b && segEq as bs

/-- `OPERATORS[op]` from `pluginlib/_util.py` lines 38–44 applied to two
parsed versions: `=`/`==` ↦ `eq`, `!=` ↦ `ne`, `<` ↦ `lt`, `<=` ↦ `le`,
`>` ↦ `gt`, `>=` ↦ `ge`. -/
def applyOperator (op : String) (a b : List Nat) : Bool :=
  if op = "=" ∨ op = "==" then segEq a b
  else if op = "!=" then !segEq a b
  else if op = "<" then segLt a b
  else if op = "<=" then segLt a b || segEq a b
  else if op = ">" then segLt b a
  else if op = ">=" then segLt b a || segEq a b
  else false

/-- The sort-key comparison used by `sorted(self.keys(), key=parse_version)`:
`a` precedes `b` when `parse_version(b)` is not strictly below
`parse_version(a)`. -/
def verLe (a b : String) : Bool := !segLt (parse_version b) (parse_version a)

/-- Stable insertion into a sorted list (model of Python's stable `sorted`). -/
def insertSorted (le : String → String → Bool) (a : String) :
    List String → List String
  | [] => [a]
  | b :: bs => if le a b then a :: b :: bs else b :: insertSorted le a bs

/-- Stable sort (model of Python's `sorted`, which is stable and ascending). -/
def insertionSort (le : String → String → Bool) : List String → List String
  | [] => []
  | a :: as => insertSorted le a (insertionSort le as)

/-! ### Plugin containers from `pluginlib/_objects.py` -/

/-- A value returned by `PluginDict._filter`: Python `None`, a plugin class
(identified by a number), or an `OrderedDict` of version → plugin. -/
inductive PRes where
  | pynone
  | plugin (id : Nat)
  | vdict (items : List (String × Nat))
  deriving DecidableEq, Repr

/-- Python truthiness of a `PluginDict._filter` result: `None` and empty
dicts are falsy, classes and non-empty dicts truthy. -/
def PRes.truthy : PRes → Bool
  | .pynone => false
  | .plugin _ => true
  | .vdict items => !items.isEmpty

/-- `None` for an absent lookup, the plugin for a found one
(`self.get(version, None)`). -/
def optPlugin : Option Nat → PRes
  | some p => .plugin p
  | none => .pynone

/-- `PluginDict` from `pluginlib/_objects.py`: version string → plugin class.
The private `_cache` only memoizes `_sorted_keys` and `_process_blacklist`
results between calls and is cleared on every mutation, so it never changes
any `_filter` result; the pure model therefore omits it. -/
structure PluginDict where
  entries : List (String × Nat)
  deriving DecidableEq, Repr

/-- `self.keys()`. -/
def PluginDict.keys (d : PluginDict) : List String := d.entries.map Prod.fst

/-- `dict.get(version, None)` / `self[version]`. -/
def PluginDict.get (d : PluginDict) (v : String) : Option Nat := d.entries.lookup v

/-- `PluginDict._sorted_keys` (`pluginlib/_objects.py` lines 194–206): the keys
sorted ascending by `parse_version`. -/
def PluginDict.sortedKeys (d : PluginDict) : List String :=
  insertionSort verLe d.keys

/-- `entry.version or '0'`: a falsy version (`None` or `''`) falls back to the
literal `'0'`. -/
def versionOrZero : PyVal → String
  | .str s => if s = "" then "0" else s
  | _ => "0"

/-- The operator token stored in a constructed blacklist entry (always one of
the seven strings). -/
def operatorToken : PyVal → String
  | .str s => s
  | _ => ""

/-- Does some blacklist entry's `(version, operator)` pair match this version
key?  (`OPERATORS[entry.operator](parse_version(key),
parse_version(entry.version or '0'))`.) -/
def excludedVersion (bl : List BlacklistEntry) (key : String) : Bool :=
  bl.any (fun e =>
    applyOperator (operatorToken e.operator) (parse_version key)
      (parse_version (versionOrZero e.version)))

/-- `PluginDict._process_blacklist` (`pluginlib/_objects.py` lines 208–237):
the union of the per-`(version, operator)` exclusion sets.  The memoization by
distinct `(version, operator)` pairs (and the reuse of previously cached sets)
never changes that union, which is exactly the set of stored version keys
matched by some entry. -/
def PluginDict.processBlacklist (d : PluginDict) (bl : List BlacklistEntry) :
    List String :=
  d.keys.filter (excludedVersion bl)

/-- `PluginDict._filter` (`pluginlib/_objects.py` lines 239–285).  `blacklist`
models both `None` and an empty tuple as `[]` (identical Python truthiness);
`version` models the `version` keyword argument. -/
def PluginDict.filter (d : PluginDict) (blacklist : List BlacklistEntry)
    (newestOnly : Bool) (version : Option String) : PRes :=
  if d.entries.isEmpty then .pynone
  else if ¬ blacklist.isEmpty then
    let excl := d.processBlacklist blacklist
    if pyTruthy version then
      if excl.contains (version.getD "") then .pynone
      else optPlugin (d.get (version.getD ""))
    else if newestOnly then
      match d.sortedKeys.reverse.find? (fun k => !excl.contains k) with
      | some k => optPlugin (d.get k)
      | none => .pynone
    else
      .vdict ((d.sortedKeys.filter (fun k => !excl.contains k)).filterMap
        (fun k => (d.get k).map (fun p => (k, p))))
  else if pyTruthy version then optPlugin (d.get (version.getD ""))
  else if newestOnly then
    match d.sortedKeys.getLast? with
    | some k => optPlugin (d.get k)
    | none => .pynone
  else
    .vdict (d.sortedKeys.filterMap
      (fun k => (d.get k).map (fun p => (k, p))))

/-- C1's selection-priority description of `PluginDict._filter`, as amended:
with an exact version selector, the implementation stored under exactly that
version string when it is not in the blacklist's exclusion set, an absent
value otherwise; else with the newest-only flag, the implementation under the
highest non-excluded version in version-sort order (absent when every version
is excluded); else the ordered mapping of all non-excluded versions in
ascending version order.  A container with no entries yields an absent value
in every shape (amendment: also for the all-versions shape). -/
def filterSelectionClaim (d : PluginDict) (blacklist : List BlacklistEntry)
    (newestOnly : Bool) (version : Option String) : PRes :=
  if d.entries.isEmpty then .pynone
  else if pyTruthy version then
    if excludedVersion blacklist (version.getD "") then .pynone
    else optPlugin (d.get (version.getD ""))
  else if newestOnly then
    match (d.sortedKeys.filter (fun k => !excludedVersion blacklist k)).getLast? with
    | some k => optPlugin (d.get k)
    | none => .pynone
  else
    .vdict ((d.sortedKeys.filter (fun k => !excludedVersion blacklist k)).filterMap
      (fun k => (d.get k).map (fun p => (k, p))))

/-- `TypeDict` from `pluginlib/_objects.py` lines 174–186: implementation
name → `PluginDict`, remembering its owning parent class (identified by a
number). -/
structure TypeDict where
  parent : Nat
  entries : List (String × PluginDict)
  deriving DecidableEq, Repr

/-- `GroupDict` from `pluginlib/_objects.py` lines 91–171: extension-point
type name → `TypeDict`. -/
structure GroupDict where
  entries : List (String × TypeDict)
  deriving DecidableEq, Repr

/-- Python truthiness of the optional `type_filter` argument (`None` and an
empty tuple are falsy). -/
def pyTruthyList : Option (List String) → Bool
  | none => false
  | some l => !l.isEmpty

/-- The blacklist entries relevant to `key` in `_filter`'s partition loop: an
entry with `getattr(entry, self._key_attr) not in (key, None)` is skipped. -/
def relevantFor (attr : BlacklistEntry → PyVal) (key : String)
    (bl : List BlacklistEntry) : List BlacklistEntry :=
  bl.filter (fun e => attr e == PyVal.str key || attr e == PyVal.pynone)

/-- `GroupDict`'s wildcard test: some relevant entry has every
`_bl_skip_attrs = ('name', 'version')` attribute `None`. -/
def groupWildcard (rel : List BlacklistEntry) : Bool :=
  rel.any (fun e => e.name == PyVal.pynone && e.version == PyVal.pynone)

/-- `TypeDict`'s wildcard test: some relevant entry has every
`_bl_skip_attrs = ('version',)` attribute `None`. -/
def typeWildcard (rel : List BlacklistEntry) : Bool :=
  rel.any (fun e => e.version == PyVal.pynone)

/-- `GroupDict._items` (lines 101–123) specialised to `TypeDict`
(`_key_attr = 'name'`): the `type_filter` argument is ignored because
`self._key_attr != 'type'`, so only the `name` selector applies. -/
def TypeDict.itemsSel (t : TypeDict) (name : Option String) :
    List (String × PluginDict) :=
  if pyTruthy name then
    match t.entries.lookup (name.getD "") with
    | some v => [(name.getD "", v)]
    | none => []
  else t.entries

/-- `GroupDict._items` (lines 101–123) with `_key_attr = 'type'`. -/
def GroupDict.itemsSel (g : GroupDict) (typeFilter : Option (List String))
    (name : Option String) : List (String × TypeDict) :=
  if pyTruthy name then
    if pyTruthyList typeFilter then
      if (typeFilter.getD []).contains (name.getD "") then
        match g.entries.lookup (name.getD "") with
        | some v => [(name.getD "", v)]
        | none => []
      else []
    else
      match g.entries.lookup (name.getD "") with
      | some v => [(name.getD "", v)]
      | none => []
  else if pyTruthyList typeFilter then
    g.entries.filter (fun kv => (typeFilter.getD []).contains kv.1)
  else g.entries

/-- A value returned by `TypeDict._filter`: the `plugins` dictionary, or — when
a `name` selector is active — `plugins.get(filtered_name, None)`, i.e. a
single `PluginDict._filter` result (`PRes.pynone` doubles as the Python `None`
default). -/
inductive TRes where
  | obj (r : PRes)
  | ndict (items : List (String × PRes))
  deriving DecidableEq, Repr

/-- `GroupDict._filter` (`pluginlib/_objects.py` lines 125–171) as inherited by
`TypeDict` (`_skip_empty = True`, `_key_attr = 'name'`,
`_bl_skip_attrs = ('version',)`, recursing into `PluginDict._filter`).  Each
loop iteration contributes at most one `plugins[key]` assignment (none on the
wildcard skip, since `_skip_empty` is true, and none when the child result is
falsy), so the loop is a `filterMap` over the selected items.  The
`if blacklist:` guard of the source is immaterial here: partitioning an empty
blacklist yields an empty relevant list, no wildcard, and a falsy
`plugin_blacklist` for the child, exactly like the `None` it passes
otherwise. -/
def typeStep (blacklist : List BlacklistEntry) (newestOnly : Bool)
    (version : Option String) (kv : String × PluginDict) : Option (String × PRes) :=
  let rel := relevantFor (fun e => e.name) kv.1 blacklist
  if typeWildcard rel then none
  else
    let result := kv.2.filter rel newestOnly version
    if result.truthy then some (kv.1, result) else none

def TypeDict.filter (t : TypeDict) (blacklist : List BlacklistEntry)
    (newestOnly : Bool) (name version : Option String) : TRes :=
  let plugins := (t.itemsSel name).filterMap (typeStep blacklist newestOnly version)
  if pyTruthy name then
    .obj ((plugins.lookup (name.getD "")).getD .pynone)
  else .ndict plugins

/-- A value stored under a type key by `GroupDict._filter`: the `None`
placeholder (wildcard hit while an exact `type` selector is active), the
`self._bl_empty()` empty-dictionary placeholder (wildcard hit, no selector), or
a `TypeDict._filter` result. -/
inductive GVal where
  | pynone
  | emptyDict
  | tres (r : TRes)
  deriving DecidableEq, Repr

/-- A value returned by `GroupDict._filter`: the `plugins` dictionary, or —
when a `type` selector is active — `plugins.get(filtered_name, None)`
(`GVal.pynone` doubles as the Python `None` default). -/
inductive GRes where
  | val (v : GVal)
  | gdict (items : List (String × GVal))
  deriving DecidableEq, Repr

/-- `GroupDict._filter` (`pluginlib/_objects.py` lines 125–171) with
`_skip_empty = False`, `_key_attr = 'type'`,
`_bl_skip_attrs = ('name', 'version')`, `_bl_empty = DictWithDotNotation`:
every selected key contributes exactly one `plugins[key]` assignment (the
wildcard placeholder or the recursive `TypeDict._filter` result — `result or
not self._skip_empty` always holds), so the loop is a `map` over the selected
items. -/
def groupStep (blacklist : List BlacklistEntry) (newestOnly : Bool)
    (ptype name version : Option String) (kv : String × TypeDict) : String × GVal :=
  let rel := relevantFor (fun e => e.type) kv.1 blacklist
  if groupWildcard rel then
    (kv.1, if pyTruthy ptype then GVal.pynone else GVal.emptyDict)
  else
    (kv.1, GVal.tres (kv.2.filter rel newestOnly name version))

def GroupDict.filter (g : GroupDict) (blacklist : List BlacklistEntry)
    (newestOnly : Bool) (typeFilter : Option (List String))
    (ptype name version : Option String) : GRes :=
  let plugins :=
    (g.itemsSel typeFilter ptype).map (groupStep blacklist newestOnly ptype name version)
  if pyTruthy ptype then
    .val ((plugins.lookup (ptype.getD "")).getD GVal.pynone)
  else .gdict plugins

/-! ### Friendly exception formatting from `pluginlib/_loader.py` -/

/-- One traceback frame: the source file it points into (`entry[0]` of
`traceback.extract_tb`) and the text `traceback.format_tb`/`format_list`
renders for it. -/
structure Frame where
  filename : String
  rendered : String
  deriving DecidableEq, Repr

/-- Characters of a list strictly before the last occurrence of `sep`; `none`
when `sep` does not occur. -/
def beforeLast (sep : Char) : List Char → Option (List Char)
  | [] => none
  | c :: rest =>
    match beforeLast sep rest with
    | some tail => some (c :: tail)
    | none => if c = sep then some [] else none

/-- `os.path.dirname` (POSIX model): everything before the final path
separator, `""` when there is none. -/
def dirname (p : String) : String :=
  match beforeLast '/' p.toList with
  | some l => String.mk l
  | none => ""

/-- `os.path.splitext(p)[0]` (model): the path without its final dot
extension when one exists. -/
def splitextRoot (p : String) : String :=
  match beforeLast '.' p.toList with
  | some l => String.mk l
  | none => p

/-- The loader module's own `__file__` (`pluginlib/_loader.py`), which
`_raise_friendly_exception` compares frames against to track `here`. -/
def loaderFile : String := "/site-packages/pluginlib/_loader.py"

/-- The `for idx, entry in enumerate(tb_list)` loop of
`_raise_friendly_exception` (`pluginlib/_loader.py` lines 68–76): returns the
final `(start, here)` pair.  `start` is the index of the first frame whose
directory equals the candidate path (the loop breaks there, leaving `start = 0`
when no frame matches); `here` tracks the index of the last frame belonging to
the loader's own file seen before that. -/
def findStartHere (path : String) : Nat → Nat → List Frame → Nat × Nat
  | _, here, [] => (0, here)
  | idx, here, f :: rest =>
    if dirname f.filename = path then (idx, here)
    else findStartHere path (idx + 1)
      (if splitextRoot f.filename = splitextRoot loaderFile then idx else here) rest

/-- `format_exception` from `pluginlib/_loader.py` lines 35–50: the
`'Traceback (most recent call last):\n'` header, then
`traceback.format_tb(tback, limit)` (the first `limit` frames; all of them when
`limit` is `None`) for an absent or nonnegative limit, or
`traceback.format_list(traceback.extract_tb(tback)[limit:])` (the last
`|limit|` frames) for a negative one, then the exception-only lines. -/
def format_exception (excOnly : List String) (tb : List Frame) (limit : Option Int) :
    List String :=
  ["Traceback (most recent call last):\n"] ++
  (match limit with
   | none => tb.map Frame.rendered
   | some l =>
     if 0 ≤ l then (tb.take l.toNat).map Frame.rendered
     else (tb.drop (tb.length - (-l).toNat)).map Frame.rendered) ++
  excOnly

/-- The friendly text built by `_raise_friendly_exception`
(`pluginlib/_loader.py` lines 53–91) and attached to the raised
`PluginImportError`: compute `start`/`here` when a path is known, pick the
truncation limit — `0` when `start == 0` and the exception is a `SyntaxError`,
else `0 - len(tb_list) + max(start, here)` — and format. -/
def friendlyText (isSyntaxError : Bool) (path : Option String) (tb : List Frame)
    (excOnly : List String) : List String :=
  let sh := if pyTruthy path then findStartHere (path.getD "") 0 0 tb else (0, 0)
  let limit : Int :=
    if sh.1 = 0 ∧ isSyntaxError then 0
    else 0 - (tb.length : Int) + max sh.1 sh.2
  format_exception excOnly tb (some limit)

/-! ### `ClassInspector` from `pluginlib/_parent.py` -/

/-- The kind of a class member as the `isinstance`/`isfunction` dispatch of
`_check_methods` sees it: a `property`, a `staticmethod`, a `classmethod`, a
plain function, or anything else (a plain attribute, a marker object, …). -/
inductive MemberKind where
  | prop
  | staticMeth
  | classMeth
  | func
  | other
  deriving DecidableEq, Repr

/-- `inspect.getfullargspec` of the member's underlying callable, minus the
`annotations` field (which `_compare_argspec` skips; annotations are carried
separately on `Member` and compared by `_check_annotations`). -/
structure ArgSpec where
  args : List String
  varargs : Option String
  varkw : Option String
  defaults : List String
  kwonlyargs : List String
  kwonlydefaults : List (String × String)
  deriving DecidableEq, Repr

/-- A class member as `ClassInspector` inspects it: its dispatch kind, the
argspec of its underlying callable (meaningful for the three callable kinds),
the value of `asyncio.iscoroutinefunction` on it, and its `__annotations__`
mapping (`getattr(method, '__annotations__', {})`). -/
structure Member where
  kind : MemberKind
  spec : ArgSpec
  coroutine : Bool
  annotations : List (String × String)
  deriving DecidableEq, Repr

/-- `_compare_argspec` (`pluginlib/_parent.py` lines 262–287): every
`FullArgSpec` field except `annotations` must match; error code 220 on
mismatch, else no error. -/
def compare_argspec (s1 s2 : ArgSpec) : Nat :=
  if s1 = s2 then 0 else 220

/-- `iscoroutinefunction(submethod)`: `false` for the `UNDEFINED` sentinel. -/
def subCoroutine : Option Member → Bool
  | some m => m.coroutine
  | none => false

/-- `getattr(submethod, '__annotations__', {})`: empty for `UNDEFINED`. -/
def subAnnotations : Option Member → List (String × String)
  | some m => m.annotations
  | none => []

/-- The kind-dispatch part of the `_check_methods` loop body
(`pluginlib/_parent.py` lines 141–153) for one required member `m` and the
override `sub` found by the MRO walk (`none` models `UNDEFINED`: either no
definition was found or the found one is the abstract member itself):
`_check_property` (210), `_check_static_method` (211/220),
`_check_class_method` (212/220), `_check_generic_method` (213/220), or the
bare existence check (214). -/
def checkMemberKind (m : Member) (sub : Option Member) : Nat :=
  match m.kind with
  | .prop =>
    match sub with
    | none => 210
    | some s => if s.kind = .prop then 0 else 210
  | .staticMeth =>
    match sub with
    | none => 211
    | some s => if s.kind = .staticMeth then compare_argspec m.spec s.spec else 211
  | .classMeth =>
    match sub with
    | none => 212
    | some s => if s.kind = .classMeth then compare_argspec m.spec s.spec else 212
  | .func =>
    match sub with
    | none => 213
    | some s => if s.kind = .func then compare_argspec m.spec s.spec else 213
  | .other =>
    match sub with
    | none => 214
    | some _ => 0

/-- One full iteration of the `_check_methods` loop
(`pluginlib/_parent.py` lines 126–159): the kind dispatch, then — while no
error is set — `_check_coroutine_method` (215), then `_check_annotations`
(216). -/
def checkMember (m : Member) (sub : Option Member) : Nat :=
  let c := checkMemberKind m sub
  if c ≠ 0 then c
  else if m.coroutine ∧ subCoroutine sub = false then 215
  else if m.annotations ≠ [] ∧ subAnnotations sub ≠ [] ∧
      m.annotations ≠ subAnnotations sub then 216
  else 0

/-- The `_skipload_` attribute: a plain (non-callable) flag, or a callable
whose call result is a `(skip, message)` tuple or a plain value. -/
inductive SkipSpec where
  | flag (b : Bool)
  | callTuple (skip : Bool) (message : String)
  | callPlain (skip : Bool)
  deriving DecidableEq, Repr

/-- `_check_skipload` (`pluginlib/_parent.py` lines 98–119): 156 when the
callable's result — or the first element of its tuple result — is truthy,
50 when the plain flag is truthy, else no error. -/
def check_skipload : SkipSpec → Nat
  | .flag b => if b then 50 else 0
  | .callTuple skip _ => if skip then 156 else 0
  | .callPlain skip => if skip then 156 else 0

/-- The `_check_methods` loop over all required members: the first nonzero
error code stops the loop (`if self.errorcode: break`). -/
def check_members : List (Member × Option Member) → Nat
  | [] => 0
  | (m, sub) :: rest =>
    let c := checkMember m sub
    if c ≠ 0 then c else check_members rest

/-- `ClassInspector.__init__` (`pluginlib/_parent.py` lines 81–90): the
skipload check, then — only when no error is set — the member checks; the
resulting `errorcode` (0 means valid). -/
def classInspect (skip : SkipSpec) (members : List (Member × Option Member)) : Nat :=
  let c := check_skipload skip
  if c ≠ 0 then c else check_members members

/-- `sub.kind = k` for a genuine override, `false` for `UNDEFINED`. -/
def subKindIs (k : MemberKind) : Option Member → Bool
  | some s => s.kind = k
  | none => false

/-- `sub` is a genuine override whose argspec (minus annotations) differs from
the required member's. -/
def subSpecDiffers (m : Member) : Option Member → Bool
  | some s => m.spec ≠ s.spec
  | none => false

/-- C5's table of rejection codes for a single required member, written from
the claim: 210 when a required property is missing or overridden by a
non-property; 211 likewise for static methods; 212 for class methods; 213 when
a required plain method is missing or overridden by a non-function; 214 when a
required member of any other kind is absent from the candidate's entire
ancestor chain; 220 when the formal-parameter shapes, excluding annotations,
differ; 215 when a required coroutine method is overridden by a non-coroutine;
216 when the required member and the override both carry non-empty annotation
sets that differ, checked only after the parameter-shape comparison passes;
0 when valid. -/
def claimMemberCode (m : Member) (sub : Option Member) : Nat :=
  if m.kind = .prop ∧ ¬ subKindIs .prop sub then 210
  else if m.kind = .staticMeth ∧ ¬ subKindIs .staticMeth sub then 211
  else if m.kind = .classMeth ∧ ¬ subKindIs .classMeth sub then 212
  else if m.kind = .func ∧ ¬ subKindIs .func sub then 213
  else if m.kind = .other ∧ sub = none then 214
  else if (m.kind = .staticMeth ∨ m.kind = .classMeth ∨ m.kind = .func) ∧
      subSpecDiffers m sub then 220
  else if m.coroutine ∧ subCoroutine sub = false then 215
  else if m.annotations ≠ [] ∧ subAnnotations sub ≠ [] ∧
      m.annotations ≠ subAnnotations sub then 216
  else 0

/-! ### Plugin registration: `PluginType.__new__` from `pluginlib/_parent.py` -/

/-- The reserved default group name (`DEFAULT = '_default'`). -/
def DEFAULT : String := "_default"

/-- A class arriving at `PluginType.__new__`: `id` stands for the class
object's identity, the other fields are the declared attributes that drive
registration and the contract data `ClassInspector` consumes.  `overrides`
maps a member name to the genuine override the candidate's MRO walk finds
(absent models the `UNDEFINED` outcome: nothing found, or only the parent's
own abstract member); `abstracts` is the contract harvested from the MRO when
the class is a parent declaration. -/
structure Candidate where
  id : Nat
  group : Option String
  ptype : String
  parent : Bool
  aliasAttr : Option String
  clsName : String
  versionAttr : Option String
  modVersion : Option String
  skip : SkipSpec
  abstracts : List (String × Member)
  overrides : List (String × Member)
  deriving DecidableEq, Repr

/-- `Plugin.name`: `cls._alias_ or cls.__name__` (a falsy `_alias_` falls back). -/
def Candidate.name (c : Candidate) : String :=
  match c.aliasAttr with
  | some s => if s = "" then c.clsName else s
  | none => c.clsName

/-- `Plugin.version` (`pluginlib/_parent.py` lines 413–420):
`cls._version_ or getattr(sys.modules.get(cls.__module__, None),
'__version__', None)` — a falsy `_version_` falls back to the defining
module's `__version__` (absent when the module has none). -/
def Candidate.version (c : Candidate) : Option String :=
  match c.versionAttr with
  | some s => if s = "" then c.modVersion else some s
  | none => c.modVersion

/-- The registry version key `STR(new.version or 0)`
(`pluginlib/_parent.py` line 315): a falsy resolved version becomes the
literal string `"0"`. -/
def Candidate.versionKey (c : Candidate) : String :=
  match c.version with
  | some s => if s = "" then "0" else s
  | none => "0"

/-- `new._group_ if new._group_ else DEFAULT` (line 308). -/
def Candidate.groupName (c : Candidate) : String :=
  match c.group with
  | some s => if s = "" then DEFAULT else s
  | none => DEFAULT

/-- A per-type registry entry (`TypeDict(new)` in the source): the anchored
parent class, the harvested contract (`new.__abstractmethods__`), and
name → version → class registrations (the version level is the same
`PluginDict` the filter layer uses; here it stores class identities). -/
structure TypeReg where
  parentId : Nat
  abstracts : List (String × Member)
  entries : List (String × PluginDict)
  deriving DecidableEq, Repr

/-- One group's registry: type name → `TypeReg`. -/
abbrev GroupReg := List (String × TypeReg)

/-- The process-wide `PluginType.__plugins` registry: group name → group. -/
abbrev Registry := List (String × GroupReg)

/-- Python dict assignment `l[k] = v`: replace an existing binding in place or
append a new one. -/
def assocSet {α : Type} (l : List (String × α)) (k : String) (v : α) :
    List (String × α) :=
  if (l.map Prod.fst).contains k then
    l.map (fun p => if p.1 = k then (k, v) else p)
  else l ++ [(k, v)]

/-- The observable effects of one `PluginType.__new__` run, in order:
`validated code` records that a `ClassInspector` was constructed (with its
resulting error code), `dupWarning` the duplicate-plugin warning naming the
rejected and the existing class, `inserted` a registry insertion,
`skipDebug`/`skipInfo`/`skipWarning` the tiered rejection diagnostics. -/
inductive RegEffect where
  | dupWarning (newId existingId : Nat)
  | validated (code : Nat)
  | inserted (name version : String) (id : Nat)
  | skipDebug (code : Nat)
  | skipInfo (code : Nat)
  | skipWarning (code : Nat)
  deriving DecidableEq, Repr

/-- The insertion
`group[new._type_].setdefault(new.name, PluginDict())[version] = new`
(`pluginlib/_parent.py` line 330). -/
def insertPlugin (reg : Registry) (g t n v : String) (id : Nat) : Registry :=
  match ((reg.lookup g).getD []).lookup t with
  | some tr =>
    let pd := PluginDict.mk (assocSet ((tr.entries.lookup n).getD ⟨[]⟩).entries v id)
    assocSet reg g (assocSet ((reg.lookup g).getD []) t
      { tr with entries := assocSet tr.entries n pd })
  | none => reg

/-- Pair every harvested abstract member with the override the candidate's MRO
walk finds for that name (`none` = `UNDEFINED`), the input of
`_check_methods`. -/
def pairMembers (abstracts overrides : List (String × Member)) :
    List (Member × Option Member) :=
  abstracts.map (fun nm => (nm.2, overrides.lookup nm.1))

/-- `plugindict and version in plugindict` (line 318): the `.get(new.name,
UNDEFINED)` result is truthy (a non-empty dict) and already holds the version
key. -/
def isDuplicate (plugindict : Option PluginDict) (version : String) : Bool :=
  match plugindict with
  | some pd => !pd.entries.isEmpty && pd.keys.contains version
  | none => false

/-- `PluginType.__new__` (`pluginlib/_parent.py` lines 298–357) acting on the
registry: raises (`Except.error`) for a duplicate parent declaration
(`'parent must be unique'`) or an implementation with an unknown type
(`'Unknown parent type'`); otherwise returns the updated registry and the
observable effects in order.  The `setdefault` that inserts an empty group
right before the `'Unknown parent type'` raise is not observable through the
raised error and is omitted. -/
def pluginTypeNew (reg : Registry) (c : Candidate) :
    Except String (Registry × List RegEffect) :=
  let gname := c.groupName
  let grp := (reg.lookup gname).getD []
  match grp.lookup c.ptype with
  | some tr =>
    if c.parent then .error ("parent must be unique: " ++ c.ptype)
    else
      let plugindict := tr.entries.lookup c.name
      let version := c.versionKey
      if isDuplicate plugindict version then
        .ok (reg, [.dupWarning c.id
          (((plugindict.getD ⟨[]⟩).get version).getD 0)])
      else
        let code := classInspect c.skip (pairMembers tr.abstracts c.overrides)
        if code = 0 then
          .ok (insertPlugin reg gname c.ptype c.name version c.id,
               [.validated 0, .inserted c.name version c.id])
        else
          .ok (reg, [.validated code,
            if code < 100 then .skipDebug code
            else if code < 200 then .skipInfo code
            else .skipWarning code])
  | none =>
    if c.parent then
      .ok (assocSet reg gname (assocSet grp c.ptype ⟨c.id, c.abstracts, []⟩), [])
    else .error ("Unknown parent type: " ++ c.ptype)

/-! ## Theorems -/

/-- Helper: membership through `insertSorted`. -/
theorem mem_insertSorted (le : String → String → Bool) (a x : String) :
    ∀ l, x ∈ insertSorted le a l ↔ x = a ∨ x ∈ l := by
  intro l
  induction l with
  | nil => simp [insertSorted]
  | cons b bs ih =>
    simp only [insertSorted]
    split_ifs <;> (simp_all; try tauto)

/-- Helper: membership through `insertionSort`. -/
theorem mem_insertionSort (le : String → String → Bool) (x : String) :
    ∀ l, x ∈ insertionSort le l ↔ x ∈ l := by
  intro l
  induction l with
  | nil => simp [insertionSort]
  | cons a as ih => simp [insertionSort, mem_insertSorted, ih]

/-- Helper: a key outside the stored keys has no binding. -/
theorem lookup_eq_none_of_not_mem {α : Type} (l : List (String × α)) (k : String)
    (h : k ∉ l.map Prod.fst) : l.lookup k = none := by
  induction l with
  | nil => rfl
  | cons p rest ih =>
    rcases p with ⟨k1, v1⟩
    simp only [List.map_cons, List.mem_cons, not_or] at h
    have hb : (k == k1) = false := beq_eq_false_iff_ne.mpr h.1
    simp [List.lookup, hb, ih h.2]

/-- Helper: with duplicate-free keys, a member pair is the lookup result. -/
theorem lookup_eq_some_of_mem_nodup {α : Type} (k : String) (v : α) :
    ∀ l : List (String × α), (l.map Prod.fst).Nodup → (k, v) ∈ l →
      l.lookup k = some v := by
  intro l
  induction l with
  | nil => simp
  | cons p rest ih =>
    rcases p with ⟨k1, v1⟩
    intro hnd hm
    simp only [List.map_cons, List.nodup_cons] at hnd
    rcases List.mem_cons.mp hm with heq | htl
    · obtain ⟨h1, h2⟩ := Prod.mk.injEq k v k1 v1 ▸ heq
      have hb : (k == k1) = true := beq_iff_eq.mpr h1
      simp [List.lookup, hb, h2]
    · have hne : ¬ k = k1 := by
        intro hk
        exact hnd.1 (hk ▸ List.mem_map_of_mem Prod.fst htl)
      have hb : (k == k1) = false := beq_eq_false_iff_ne.mpr hne
      simp [List.lookup, hb, ih hnd.2 htl]

/-- Helper: `find?` over a reversed list is `getLast?` of the filtered list. -/
theorem find?_reverse_eq_getLast?_filter (p : String → Bool) (l : List String) :
    l.reverse.find? p = (l.filter p).getLast? := by
  rw [← List.filter_head? p l.reverse, List.filter_reverse, List.head?_reverse]

/-- Helper: on stored keys, membership in the `_process_blacklist` union set
coincides with the exclusion predicate. -/
theorem processBlacklist_contains (d : PluginDict) (bl : List BlacklistEntry)
    (k : String) (hk : k ∈ d.keys) :
    (d.processBlacklist bl).contains k = excludedVersion bl k := by
  unfold PluginDict.processBlacklist
  by_cases he : excludedVersion bl k
  · simp only [he]
    exact List.elem_iff.mpr (List.mem_filter.mpr ⟨hk, he⟩)
  · simp only [Bool.not_eq_true] at he
    simp only [he]
    exact Bool.eq_false_iff.mpr (fun hc => by
      have := (List.mem_filter.mp (List.elem_iff.mp hc)).2
      simp [he] at this)

/-- Helper: a key not stored at all is never in the `_process_blacklist`
union set. -/
theorem processBlacklist_contains_false (d : PluginDict) (bl : List BlacklistEntry)
    (k : String) (hk : k ∉ d.keys) :
    (d.processBlacklist bl).contains k = false := by
  unfold PluginDict.processBlacklist
  exact Bool.eq_false_iff.mpr (fun hc =>
    hk (List.mem_filter.mp (List.elem_iff.mp hc)).1)

/-- Helper: when no frame's directory matches the candidate path, the loop of
`_raise_friendly_exception` leaves `start = 0`. -/
theorem findStartHere_fst_of_no_match (path : String) (tb : List Frame)
    (h : ∀ f ∈ tb, dirname f.filename ≠ path) :
    ∀ idx here, (findStartHere path idx here tb).1 = 0 := by
  induction tb with
  | nil => intro idx here; simp [findStartHere]
  | cons f rest ih =>
    intro idx here
    simp only [findStartHere, h f (List.mem_cons_self f rest), if_false]
    exact ih (fun g hg => h g (List.mem_cons_of_mem f hg)) _ _

/-- C1 (amended): `PluginDict._filter` implements exactly the claimed
selection priority — with an exact version selector it returns the
implementation stored under exactly that version string when that version is
not in the blacklist's exclusion set and an absent value otherwise; else with
the newest-only flag it returns the implementation under the highest
non-excluded version in version-sort order, or an absent value when every
version is excluded; else it returns an ordered mapping of all non-excluded
versions in ascending version order — except that a container with no entries
yields an absent value in every shape, including the all-versions one
(amendment). -/
theorem pluginDict_filter_selection (d : PluginDict) (bl : List BlacklistEntry)
    (newestOnly : Bool) (version : Option String) :
    d.filter bl newestOnly version = filterSelectionClaim d bl newestOnly version := by
  unfold PluginDict.filter filterSelectionClaim
  by_cases hemp : d.entries.isEmpty
  · simp only [hemp, if_pos]
  · have hkeys : ∀ x, x ∈ d.sortedKeys ↔ x ∈ d.keys := fun x =>
      mem_insertionSort verLe x d.keys
    simp only [if_neg hemp]
    by_cases hbl : bl.isEmpty
    · have hblnil : bl = [] := List.isEmpty_iff.mp hbl
      subst hblnil
      simp [excludedVersion]
    · have hfilt : d.sortedKeys.filter (fun k => !(d.processBlacklist bl).contains k)
          = d.sortedKeys.filter (fun k => !excludedVersion bl k) :=
        List.filter_congr (fun x hx => by
          rw [processBlacklist_contains d bl x ((hkeys x).mp hx)])
      simp only [if_pos hbl]
      by_cases hv : pyTruthy version
      · simp only [if_pos hv]
        by_cases hex : excludedVersion bl (version.getD "")
        · simp only [if_pos hex]
          by_cases hkv : version.getD "" ∈ d.keys
          · have hc : (d.processBlacklist bl).contains (version.getD "") = true :=
              List.elem_iff.mpr (List.mem_filter.mpr ⟨hkv, hex⟩)
            simp only [if_pos hc]
          · have hc : (d.processBlacklist bl).contains (version.getD "") = false :=
              processBlacklist_contains_false d bl (version.getD "") hkv
            have hget : d.get (version.getD "") = none :=
              lookup_eq_none_of_not_mem d.entries (version.getD "") hkv
            simp only [hc, Bool.false_eq_true, if_false, hget, optPlugin]
        · simp only [if_neg hex]
          have hc : (d.processBlacklist bl).contains (version.getD "") = false := by
            by_cases hkv : version.getD "" ∈ d.keys
            · rw [processBlacklist_contains d bl (version.getD "") hkv]
              simpa using hex
            · exact processBlacklist_contains_false d bl (version.getD "") hkv
          simp only [hc, Bool.false_eq_true, if_false]
      · simp only [if_neg hv]
        cases newestOnly with
        | true =>
          simp only [if_pos (rfl : (true : Bool) = true),
            find?_reverse_eq_getLast?_filter, hfilt]
        | false =>
          simp only [if_neg (Bool.false_ne_true), hfilt]

/-- C1 counterexample: the claim as frozen asserts that for a container with no
entries the all-versions shape yields an empty ordered mapping, but
`PluginDict._filter` returns `None` for an empty dictionary in every shape
(`rtn = None` is only replaced when `self` is truthy). -/
theorem pluginDict_filter_empty_counterexample :
    PluginDict.filter ⟨[]⟩ [] false none ≠ PRes.vdict [] := by
  decide

/-- C2: blacklist wildcard suppression is asymmetric between container levels:
(1) when a blacklist entry matches a type name and carries neither name nor
version, the group container's filtered view still includes that type key,
mapped to an empty container, whatever the stored type contents are (so
recursion into that type container never contributes); (2) with an exact type
selector on that type the view yields the absent value instead; (3) when a
blacklist entry matches an implementation name and carries no version, the
type container's filtered view omits that name key entirely; (4) the group
view's key set always equals the stored set of extension-point types, so every
type appears as a key in the loader's newest view even with zero surviving
implementations; and (5) in the newest view a name key appears in a type
container only if at least one stored version of it survives the relevant
blacklist. -/
theorem container_wildcard_asymmetry :
    (∀ (g : GroupDict) (bl : List BlacklistEntry) (newestOnly : Bool)
        (name version : Option String) (key : String) (td : TypeDict)
        (e : BlacklistEntry), (key, td) ∈ g.entries → e ∈ bl →
        (e.type = .str key ∨ e.type = .pynone) → e.name = .pynone →
        e.version = .pynone →
        ∃ items, g.filter bl newestOnly none none name version = .gdict items ∧
          (key, GVal.emptyDict) ∈ items) ∧
    (∀ (g : GroupDict) (bl : List BlacklistEntry) (newestOnly : Bool)
        (name version : Option String) (key : String) (td : TypeDict)
        (e : BlacklistEntry), (g.entries.map Prod.fst).Nodup → key ≠ "" →
        (key, td) ∈ g.entries → e ∈ bl →
        (e.type = .str key ∨ e.type = .pynone) → e.name = .pynone →
        e.version = .pynone →
        g.filter bl newestOnly none (some key) name version = .val .pynone) ∧
    (∀ (t : TypeDict) (bl : List BlacklistEntry) (newestOnly : Bool)
        (version : Option String) (key : String) (e : BlacklistEntry),
        e ∈ bl → (e.name = .str key ∨ e.name = .pynone) → e.version = .pynone →
        ∀ items, t.filter bl newestOnly none version = .ndict items →
          key ∉ items.map Prod.fst) ∧
    (∀ (g : GroupDict) (bl : List BlacklistEntry) (newestOnly : Bool)
        (name version : Option String),
        ∃ items, g.filter bl newestOnly none none name version = .gdict items ∧
          items.map Prod.fst = g.entries.map Prod.fst) ∧
    (∀ (t : TypeDict) (bl : List BlacklistEntry) (key : String)
        (items : List (String × PRes)), t.filter bl true none none = .ndict items →
        key ∈ items.map Prod.fst →
        ∃ pd v, (key, pd) ∈ t.entries ∧ v ∈ pd.keys ∧
          excludedVersion (relevantFor (fun e => e.name) key bl) v = false) := by
  refine ⟨?_, ?_, ?_, ?_, ?_⟩
  · -- (1) group-level wildcard keeps the key with an empty placeholder
    intro g bl newestOnly name version key td e hmem he hkey hname hver
    have hrel : e ∈ relevantFor (fun e => e.type) key bl :=
      List.mem_filter.mpr ⟨he, by rcases hkey with h | h <;> simp [h]⟩
    have hwild : groupWildcard (relevantFor (fun e => e.type) key bl) = true :=
      List.any_eq_true.mpr ⟨e, hrel, by simp [hname, hver]⟩
    refine ⟨g.entries.map (groupStep bl newestOnly none name version), ?_, ?_⟩
    · unfold GroupDict.filter GroupDict.itemsSel
      simp [pyTruthy, pyTruthyList]
    · have hstep : groupStep bl newestOnly none name version (key, td) =
          (key, GVal.emptyDict) := by
        unfold groupStep
        simp [hwild, pyTruthy]
      exact hstep ▸ List.mem_map_of_mem _ hmem
  · -- (2) group-level wildcard with an exact type selector yields None
    intro g bl newestOnly name version key td e hnd hne hmem he hkey hname hver
    have hrel : e ∈ relevantFor (fun e => e.type) key bl :=
      List.mem_filter.mpr ⟨he, by rcases hkey with h | h <;> simp [h]⟩
    have hwild : groupWildcard (relevantFor (fun e => e.type) key bl) = true :=
      List.any_eq_true.mpr ⟨e, hrel, by simp [hname, hver]⟩
    have hpt : pyTruthy (some key) = true := by simp [pyTruthy, hne]
    have hlook : g.entries.lookup key = some td :=
      lookup_eq_some_of_mem_nodup key td g.entries hnd hmem
    unfold GroupDict.filter GroupDict.itemsSel
    simp [hpt, pyTruthyList, hlook, groupStep, hwild, List.lookup]
  · -- (3) type-level wildcard omits the name key entirely
    intro t bl newestOnly version key e he hkey hver items hres hmemkey
    have hwild : ∀ k, k = key →
        typeWildcard (relevantFor (fun e => e.name) k bl) = true := by
      intro k hk
      subst hk
      have hrel : e ∈ relevantFor (fun e => e.name) k bl :=
        List.mem_filter.mpr ⟨he, by rcases hkey with h | h <;> simp [h]⟩
      exact List.any_eq_true.mpr ⟨e, hrel, by simp [hver]⟩
    unfold TypeDict.filter TypeDict.itemsSel at hres
    simp only [pyTruthy, if_neg, Bool.false_eq_true, if_false, TRes.ndict.injEq] at hres
    subst hres
    rcases List.mem_map.mp hmemkey with ⟨⟨k, r⟩, hpair, hfst⟩
    rcases List.mem_filterMap.mp hpair with ⟨kv, _, hstep⟩
    unfold typeStep at hstep
    by_cases hw : typeWildcard (relevantFor (fun e => e.name) kv.1 bl)
    · simp [hw] at hstep
    · simp only [hw, Bool.false_eq_true, if_false] at hstep
      by_cases ht : (kv.2.filter (relevantFor (fun e => e.name) kv.1 bl)
          newestOnly version).truthy
      · simp only [ht, if_true, Option.some.injEq, Prod.mk.injEq] at hstep
        exact hw (hwild kv.1 (hstep.1.trans hfst))
      · simp [ht] at hstep
  · -- (4) the group view keeps every stored type key
    intro g bl newestOnly name version
    refine ⟨g.entries.map (groupStep bl newestOnly none name version), ?_, ?_⟩
    · unfold GroupDict.filter GroupDict.itemsSel
      simp [pyTruthy, pyTruthyList]
    · rw [List.map_map]
      refine List.map_congr_left (fun kv _ => ?_)
      unfold groupStep
      by_cases hw : groupWildcard (relevantFor (fun e => e.type) kv.1 bl) <;>
        simp [hw]
  · -- (5) a name key in the newest view has a surviving stored version
    intro t bl key items hres hmemkey
    unfold TypeDict.filter TypeDict.itemsSel at hres
    simp only [pyTruthy, if_neg, Bool.false_eq_true, if_false, TRes.ndict.injEq] at hres
    subst hres
    rcases List.mem_map.mp hmemkey with ⟨⟨k, r⟩, hpair, hfst⟩
    rcases List.mem_filterMap.mp hpair with ⟨kv, hkv, hstep⟩
    unfold typeStep at hstep
    by_cases hw : typeWildcard (relevantFor (fun e => e.name) kv.1 bl)
    · simp [hw] at hstep
    · simp only [hw, Bool.false_eq_true, if_false] at hstep
      by_cases ht : (kv.2.filter (relevantFor (fun e => e.name) kv.1 bl)
          true none).truthy
      · simp only [ht, if_true, Option.some.injEq, Prod.mk.injEq] at hstep
        have hk1 : kv.1 = key := hstep.1.trans hfst
        subst hk1
        rcases kv with ⟨k1, pd⟩
        simp only at ht hkv
        unfold PluginDict.filter at ht
        by_cases hemp : pd.entries.isEmpty
        · simp [hemp, PRes.truthy] at ht
        · simp only [if_neg hemp] at ht
          by_cases hbl : (relevantFor (fun e => e.name) k1 bl).isEmpty
          · have hnil : relevantFor (fun e => e.name) k1 bl = [] :=
              List.isEmpty_iff.mp hbl
            have hkeysne : pd.keys ≠ [] := by
              intro hk
              exact hemp (by
                have : pd.entries = [] := List.map_eq_nil_iff.mp hk
                simp [this])
            obtain ⟨v, hv⟩ := List.exists_mem_of_ne_nil pd.keys hkeysne
            exact ⟨pd, v, hkv, hv, by simp [hnil, excludedVersion]⟩
          · rw [if_pos hbl] at ht
            simp only [pyTruthy, Bool.false_eq_true, if_false] at ht
            cases hfind : (pd.sortedKeys.reverse.find?
                (fun k => !(pd.processBlacklist
                  (relevantFor (fun e => e.name) k1 bl)).contains k)) with
            | none => rw [hfind] at ht; simp [PRes.truthy] at ht
            | some vk =>
              have hp := List.find?_some hfind
              have hmemv : vk ∈ pd.keys :=
                (mem_insertionSort verLe vk pd.keys).mp
                  (List.mem_reverse.mp (List.mem_of_find?_eq_some hfind))
              have hcont := processBlacklist_contains pd
                (relevantFor (fun e => e.name) k1 bl) vk hmemv
              refine ⟨pd, vk, hkv, hmemv, ?_⟩
              rw [← hcont]
              simpa using hp
      · simp [ht] at hstep

/-- Closed instance of `container_wildcard_asymmetry` (part 1): a fully
blacklisted `parser` type stays a key of the newest view, mapped to the empty
placeholder. -/
theorem container_wildcard_asymmetry_witness :
    ∃ items,
      GroupDict.filter ⟨[("parser", ⟨7, [("json", ⟨[("1.0", 1)]⟩)]⟩)]⟩
          [⟨.str "parser", .pynone, .pynone, .str "=="⟩] true none
          none none none = .gdict items ∧
        ("parser", GVal.emptyDict) ∈ items :=
  container_wildcard_asymmetry.1 ⟨[("parser", ⟨7, [("json", ⟨[("1.0", 1)]⟩)]⟩)]⟩
    [⟨.str "parser", .pynone, .pynone, .str "=="⟩] true none none "parser"
    ⟨7, [("json", ⟨[("1.0", 1)]⟩)]⟩ ⟨.str "parser", .pynone, .pynone, .str "=="⟩
    (by decide) (by decide) (Or.inl rfl) rfl rfl

/-- C7 (amended): `BlacklistEntry` construction fails if and only if all three of
type, name, and version end up absent; or the third positional value is an
operator token while the fourth positional value is absent; or the normalized
version is present but not a text string; or the normalized operator is present
and not one of the seven tokens.  In every other case construction succeeds,
keeping type and name as given, with the operator defaulting to `==` when
absent. -/
theorem blacklistEntry_init_failure_iff (t n v o : PyVal) :
    ((∃ e, BlacklistEntry.init t n v o = .error e) ↔
      ((t = .pynone ∧ n = .pynone ∧ normalizedVersion v o = .pynone) ∨
       (v.isOperator ∧ o = .pynone) ∨
       (normalizedVersion v o ≠ .pynone ∧ ¬ (normalizedVersion v o).isStr) ∨
       (normalizedOperator v o ≠ .pynone ∧ ¬ (normalizedOperator v o).isOperator))) ∧
    (∀ entry, BlacklistEntry.init t n v o = .ok entry →
      entry.type = t ∧ entry.name = n ∧ entry.version = normalizedVersion v o ∧
      entry.operator = (if normalizedOperator v o = .pynone then PyVal.str "=="
                        else normalizedOperator v o)) := by
  cases hb : v.isOperator <;>
    (unfold BlacklistEntry.init normalizedVersion normalizedOperator;
     simp only [hb, Bool.false_eq_true, if_false, if_true];
     split_ifs with h1 h2 h3 h4 <;> simp_all <;> tauto)

/-- C7 counterexample: the claim as frozen asserts that
`BlacklistEntry('t', None, '>')` succeeds (type is present, the normalized
version is absent, the operator is valid), but the source raises
`AttributeError('version must be specifed when operator is specified')`. -/
theorem blacklistEntry_swap_missing_version_counterexample :
    BlacklistEntry.init (.str "t") .pynone (.str ">") .pynone =
      .error (.attrError "version must be specifed when operator is specified") := by
  rfl

/-- Closed instance of `blacklistEntry_init_failure_iff`. -/
theorem blacklistEntry_init_failure_iff_witness :
    ∃ e, BlacklistEntry.init PyVal.pynone PyVal.pynone PyVal.pynone PyVal.pynone =
      .error e :=
  (blacklistEntry_init_failure_iff .pynone .pynone .pynone .pynone).1.2
    (Or.inl (by decide))

/-- C8: for any type and name, an operator token `o` and a version string `v`
that is not an operator token, `BlacklistEntry(t, n, o, v)` and
`BlacklistEntry(t, n, v, o)` both succeed and produce entries whose four fields
are pairwise equal. -/
theorem blacklistEntry_swap_equivalence (t n : PyVal) (o v : String)
    (ho : o ∈ OPERATORS) (hv : v ∉ OPERATORS) :
    BlacklistEntry.init t n (.str o) (.str v) = .ok ⟨t, n, .str v, .str o⟩ ∧
    BlacklistEntry.init t n (.str v) (.str o) = .ok ⟨t, n, .str v, .str o⟩ := by
  have hov : (PyVal.str o).isOperator = true := by
    simpa [PyVal.isOperator] using List.elem_iff.mpr ho
  have hvv : (PyVal.str v).isOperator = false := by
    simp only [PyVal.isOperator]
    exact Bool.eq_false_iff.mpr (fun hc => hv (List.elem_iff.mp hc))
  constructor <;>
    simp [BlacklistEntry.init, normalizedVersion, normalizedOperator, hov, hvv,
      PyVal.isStr]

/-- Closed instance of `blacklistEntry_swap_equivalence`. -/
theorem blacklistEntry_swap_equivalence_witness :
    BlacklistEntry.init (.str "parser") (.str "json") (.str ">=") (.str "1.0") =
      .ok ⟨.str "parser", .str "json", .str "1.0", .str ">="⟩ :=
  (blacklistEntry_swap_equivalence (.str "parser") (.str "json") ">=" "1.0"
    (by decide) (by decide)).1

/-- C10: on the invalidatable-cache dictionary, a pop of a missing key raises
the missing-key error and leaves the private cache intact, whereas an ordinary
deletion (`del`) of a missing key raises the missing-key error but still clears
the entire private cache. -/
theorem cachingDict_missing_key_pop_vs_delitem (d : CachingDict) (k : String)
    (h : d.hasKey k = false) :
    d.pop k = .keyError k d ∧
    d.delitem k = .keyError k ⟨d.data, []⟩ := by
  have hnone : d.data.lookup k = none := by
    have := h
    unfold CachingDict.hasKey at this
    exact Option.not_isSome_iff_eq_none.mp (by simp [this])
  constructor
  · simp [CachingDict.pop, hnone]
  · simp [CachingDict.delitem, h]

/-- Closed instance of `cachingDict_missing_key_pop_vs_delitem`: the staged
dictionary from the test suite (`{'hello': 'world'}` with a populated cache)
and the missing key `'Hey'`. -/
theorem cachingDict_missing_key_pop_vs_delitem_witness :
    (CachingDict.mk [("hello", "world")] [("test", "Testing")]).pop "Hey" =
      .keyError "Hey" ⟨[("hello", "world")], [("test", "Testing")]⟩ ∧
    (CachingDict.mk [("hello", "world")] [("test", "Testing")]).delitem "Hey" =
      .keyError "Hey" ⟨[("hello", "world")], []⟩ :=
  cachingDict_missing_key_pop_vs_delitem ⟨[("hello", "world")], [("test", "Testing")]⟩
    "Hey" (by decide)

/-- C9 (amended): when the exception raised during a candidate module import is
a syntax error and no traceback frame is located inside the candidate module's
resolved directory, the friendly text contains no traceback frames at all: it
is exactly the `'Traceback (most recent call last):\n'` header followed by the
final exception line(s) (the truncation limit is `0`, not "no truncation"). -/
theorem friendly_syntax_error_no_frames (path : Option String) (tb : List Frame)
    (excOnly : List String)
    (h : ∀ f ∈ tb, dirname f.filename ≠ path.getD "") :
    friendlyText true path tb excOnly =
      ["Traceback (most recent call last):\n"] ++ excOnly := by
  unfold friendlyText
  by_cases hp : pyTruthy path = true
  · simp only [hp, if_true, findStartHere_fst_of_no_match (path.getD "") tb h 0 0,
      true_and, if_true]
    simp [format_exception]
  · simp only [Bool.not_eq_true] at hp
    simp [hp, format_exception]

/-- C9 counterexample: a syntax error whose lone traceback frame lies outside
the candidate directory.  The claim as frozen asserts the friendly text
contains every frame of the original traceback, but the rendered frame line is
absent from it. -/
theorem friendly_syntax_error_full_traceback_counterexample :
    "  File bad_frame, line 1\n" ∉
      friendlyText true (some "/cand")
        [⟨"/other/mod.py", "  File bad_frame, line 1\n"⟩]
        ["SyntaxError: invalid syntax\n"] := by
  decide

/-- Closed instance of `friendly_syntax_error_no_frames`. -/
theorem friendly_syntax_error_no_frames_witness :
    friendlyText true (some "/cand")
      [⟨"/other/mod.py", "  File other, line 7\n"⟩]
      ["SyntaxError: invalid syntax\n"] =
      ["Traceback (most recent call last):\n", "SyntaxError: invalid syntax\n"] :=
  friendly_syntax_error_no_frames (some "/cand")
    [⟨"/other/mod.py", "  File other, line 7\n"⟩]
    ["SyntaxError: invalid syntax\n"] (by decide)

/-- Helper: a successful lookup means the key is stored. -/
theorem mem_keys_of_lookup_eq_some {α : Type} (k : String) (v : α) :
    ∀ l : List (String × α), l.lookup k = some v → k ∈ l.map Prod.fst := by
  intro l
  induction l with
  | nil => simp [List.lookup]
  | cons p rest ih =>
    rcases p with ⟨k1, v1⟩
    intro h
    by_cases hk : k = k1
    · simp [hk]
    · have hb : (k == k1) = false := beq_eq_false_iff_ne.mpr hk
      simp only [List.lookup, hb] at h
      simp [ih h]

/-- C5: contract validation assigns exactly the claimed rejection codes — the
skip check yields 50 exactly when the flag is a true non-callable and 156
exactly when it is a callable whose result (or first tuple element) is truthy,
and each per-member check equals the claim's code table (210/211/212/213/214
for missing or wrongly-kinded members, 220 for differing parameter shapes
excluding annotations, 215 for a coroutine overridden by a non-coroutine, 216
for differing non-empty annotation sets checked only after the shape
comparison passes, 0 when valid). -/
theorem classInspector_codes (sk : SkipSpec) (m : Member) (sub : Option Member) :
    (check_skipload sk = 50 ↔ sk = .flag true) ∧
    (check_skipload sk = 156 ↔
      ((∃ msg, sk = .callTuple true msg) ∨ sk = .callPlain true)) ∧
    checkMember m sub = claimMemberCode m sub := by
  refine ⟨?_, ?_, ?_⟩
  · cases sk with
    | flag b => cases b <;> simp [check_skipload]
    | callTuple s msg => cases s <;> simp [check_skipload]
    | callPlain s => cases s <;> simp [check_skipload]
  · cases sk with
    | flag b => cases b <;> simp [check_skipload]
    | callTuple s msg => cases s <;> simp [check_skipload]
    | callPlain s => cases s <;> simp [check_skipload]
  · rcases m with ⟨mk, mspec, mco, mann⟩
    rcases sub with _ | ⟨⟨sk2, sspec, sco, sann⟩⟩
    · cases mk <;>
        simp [checkMember, checkMemberKind, claimMemberCode, subKindIs,
          subCoroutine, subAnnotations, subSpecDiffers]
    · cases mk <;> cases sk2 <;>
        (simp [checkMember, checkMemberKind, claimMemberCode, subKindIs,
          subCoroutine, subAnnotations, subSpecDiffers, compare_argspec];
         try (split_ifs <;> simp_all))

/-- Closed instance of `classInspector_codes`: the parameter-shape mismatch of
spec property 5 — a required `(self, some_arg)` method overridden by a
`(self)`-only one — is assigned the same code by the source check and the
claim's table. -/
theorem classInspector_codes_witness :
    checkMember ⟨.func, ⟨["self", "some_arg"], none, none, [], [], []⟩, false, []⟩
        (some ⟨.func, ⟨["self"], none, none, [], [], []⟩, false, []⟩) =
      claimMemberCode
        ⟨.func, ⟨["self", "some_arg"], none, none, [], [], []⟩, false, []⟩
        (some ⟨.func, ⟨["self"], none, none, [], [], []⟩, false, []⟩) :=
  (classInspector_codes (.flag false)
    ⟨.func, ⟨["self", "some_arg"], none, none, [], [], []⟩, false, []⟩
    (some ⟨.func, ⟨["self"], none, none, [], [], []⟩, false, []⟩)).2.2

/-- C3: constructing a class under the plugin metaclass raises exactly when
either the class is marked as a parent and an extension point with the same
type is already registered in the same group, or the class is not marked as a
parent and no extension point with its type exists in its group; in every
other case construction completes without raising. -/
theorem pluginTypeNew_raises_iff (reg : Registry) (c : Candidate) :
    (∃ msg, pluginTypeNew reg c = .error msg) ↔
      ((c.parent = true ∧
          (((reg.lookup c.groupName).getD []).lookup c.ptype).isSome = true) ∨
       (c.parent = false ∧
          (((reg.lookup c.groupName).getD []).lookup c.ptype).isSome = false)) := by
  unfold pluginTypeNew
  cases hl : ((reg.lookup c.groupName).getD []).lookup c.ptype with
  | none =>
    cases hp : c.parent <;> simp [hl, hp]
  | some tr =>
    cases hp : c.parent <;> simp only [hl, hp] <;> split_ifs <;> simp_all

/-- Closed instance of `pluginTypeNew_raises_iff`: an implementation defined
before its extension point raises. -/
theorem pluginTypeNew_raises_iff_witness :
    ∃ msg, pluginTypeNew []
      ⟨1, none, "parser", false, none, "C", none, none, .flag false, [], []⟩ =
      .error msg :=
  (pluginTypeNew_raises_iff []
    ⟨1, none, "parser", false, none, "C", none, none, .flag false, [], []⟩).mpr
    (Or.inr ⟨rfl, rfl⟩)

/-- C4: when a candidate's `(name, version)` key is already present under its
type and group, the registry is left untouched, the candidate is not inserted,
exactly one duplicate-plugin warning naming the rejected and the existing
class is issued, and `ClassInspector` is never constructed (no `validated`
effect). -/
theorem duplicate_plugin_first_wins (reg : Registry) (c : Candidate)
    (tr : TypeReg) (pd : PluginDict) (existing : Nat)
    (htype : ((reg.lookup c.groupName).getD []).lookup c.ptype = some tr)
    (hpar : c.parent = false)
    (hpd : tr.entries.lookup c.name = some pd)
    (hex : pd.get c.versionKey = some existing) :
    pluginTypeNew reg c = .ok (reg, [.dupWarning c.id existing]) := by
  have hmemk : c.versionKey ∈ pd.keys :=
    mem_keys_of_lookup_eq_some c.versionKey existing pd.entries hex
  have hne : pd.entries.isEmpty = false := by
    cases hent : pd.entries with
    | nil => exact absurd hmemk (by simp [PluginDict.keys, hent])
    | cons a l => rfl
  have hdup : isDuplicate (some pd) c.versionKey = true := by
    show (!pd.entries.isEmpty && pd.keys.contains c.versionKey) = true
    rw [hne]
    simpa using List.elem_iff.mpr hmemk
  unfold pluginTypeNew
  simp [htype, hpar, hpd, hdup, hex]

/-- Closed instance of `duplicate_plugin_first_wins`: re-registering
`("json", "1.0")` in an existing type keeps the registry and warns once. -/
theorem duplicate_plugin_first_wins_witness :
    pluginTypeNew
      [("_default", [("parser", ⟨7, [], [("json", ⟨[("1.0", 41)]⟩)]⟩)])]
      ⟨42, none, "parser", false, some "json", "JsonV1", some "1.0", none,
        .flag false, [], []⟩ =
      .ok ([("_default", [("parser", ⟨7, [], [("json", ⟨[("1.0", 41)]⟩)]⟩)])],
        [.dupWarning 42 41]) :=
  duplicate_plugin_first_wins
    [("_default", [("parser", ⟨7, [], [("json", ⟨[("1.0", 41)]⟩)]⟩)])]
    ⟨42, none, "parser", false, some "json", "JsonV1", some "1.0", none,
      .flag false, [], []⟩
    ⟨7, [], [("json", ⟨[("1.0", 41)]⟩)]⟩ ⟨[("1.0", 41)]⟩ 41
    (by decide) rfl (by decide) (by decide)

/-- C6: the version key an implementation registers under is its explicit
`_version_` attribute when that is a non-empty string, otherwise its defining
module's `__version__` when that is a non-empty string, otherwise the literal
string `"0"`; and every `inserted` effect of `PluginType.__new__` uses exactly
that key. -/
theorem version_key_resolution (c : Candidate)
    (h1 : c.versionAttr ≠ some "") (h2 : c.modVersion ≠ some "") :
    (c.versionKey = (match c.versionAttr with
      | some v => v
      | none => (match c.modVersion with
        | some mv => mv
        | none => "0"))) ∧
    (∀ reg out, pluginTypeNew reg c = .ok out →
      ∀ n v i, RegEffect.inserted n v i ∈ out.2 → v = c.versionKey) := by
  constructor
  · unfold Candidate.versionKey Candidate.version
    cases hva : c.versionAttr with
    | some s =>
      have hs : s ≠ "" := fun h => h1 (by rw [hva, h])
      simp [hs]
    | none =>
      cases hmv : c.modVersion with
      | some t =>
        have ht : t ≠ "" := fun h => h2 (by rw [hmv, h])
        simp [ht]
      | none => simp
  · intro reg out hok n v i hmem
    simp only [pluginTypeNew] at hok
    split at hok
    · -- the type already exists (the parent-raise branch closes by itself)
      split_ifs at hok with hp hdup hcode
      · injection hok with h
        subst h
        simp at hmem
      · injection hok with h
        subst h
        simp only [List.mem_cons, List.not_mem_nil, or_false] at hmem
        rcases hmem with h | h
        · exact absurd h (by simp)
        · simp only [RegEffect.inserted.injEq] at h
          exact h.2.1
      all_goals (injection hok with h; subst h; simp at hmem)
    · -- the type is unknown (the raise branch closes by itself)
      split_ifs at hok with hp
      injection hok with h
      subst h
      simp at hmem

/-- Closed instance of `version_key_resolution`: a candidate with no explicit
version in a module declaring `__version__ = "2.0.0"` resolves to `"2.0.0"`. -/
theorem version_key_resolution_witness :
    Candidate.versionKey
      ⟨5, none, "parser", false, none, "Xml", none, some "2.0.0", .flag false,
        [], []⟩ = "2.0.0" :=
  (version_key_resolution
    ⟨5, none, "parser", false, none, "Xml", none, some "2.0.0", .flag false,
      [], []⟩ (by decide) (by decide)).1

end Pluginlib
